import Mathlib

/-!
Verification of the `basic_opt.ipynb` notebook of the torchbearer repository.

The notebook defines a three-element parameter tensor, a quadratic objective
`Net.f`, an identity loss, and runs 50000 SGD steps at learning rate 0.0001
from the initial guess `[2.0, 1.0, 10.0]`.  Tensors of shape `[3]` are
modelled as lists of real numbers.
-/

namespace BasicOpt

/-- Embedding of `Net.f` from the notebook:

    out = torch.zeros_like(self.pars)
    out[0] = self.pars[0]-5
    out[1] = self.pars[1]
    out[2] = self.pars[2]-1
    return torch.sum(out**2)

The three tensor reads `self.pars[i]` fail (raise `IndexError`) when the
parameter tensor has fewer than three entries, hence the `Option` result;
`torch.zeros_like` is `List.replicate pars.length 0`, the element
assignments are `List.set`, and `torch.sum(out**2)` is the sum of the
squared entries. -/
def Net.f (pars : List ℝ) : Option ℝ :=
  let out := List.replicate pars.length (0 : ℝ)
  match pars[0]?, pars[1]?, pars[2]? with
  | some p0, some p1, some p2 =>
      let out := out.set 0 (p0 - 5)
      let out := out.set 1 p1
      let out := out.set 2 (p2 - 1)
      some ((out.map (fun v => v ^ 2)).sum)
  | _, _, _ => none

/-- `Net.f` with the evaluation state made explicit: the first component is
the parameter tensor as it stands after the evaluation.  The body only ever
writes to the local tensor `out`; `self.pars` is read three times and never
assigned, so the returned state is the input state. -/
def Net.fImper (pars : List ℝ) : List ℝ × Option ℝ :=
  let out := List.replicate pars.length (0 : ℝ)
  match pars[0]?, pars[1]?, pars[2]? with
  | some p0, some p1, some p2 =>
      let out := out.set 0 (p0 - 5)
      let out := out.set 1 p1
      let out := out.set 2 (p2 - 1)
      (pars, some ((out.map (fun v => v ^ 2)).sum))
  | _, _, _ => (pars, none)

/-- The scalar value of the objective on a three-element parameter vector,
read off from the embedding `Net.f`. -/
def fval (x0 x1 x2 : ℝ) : ℝ :=
  (Net.f [x0, x1, x2]).getD 0

/-- Embedding of the notebook's loss:

    def loss(y_pred, y_true):
        return y_pred
-/
def loss (y_pred y_true : ℝ) : ℝ :=
  y_pred

/-- The initial guess `p = torch.tensor([2.0, 1.0, 10.0])`. -/
def p : List ℝ := [2.0, 1.0, 10.0]

/-- `training_steps = 50000`. -/
def training_steps : ℕ := 50000

/-- The learning rate passed to the optimizer, `lr=0.0001`. -/
def lr : ℝ := 0.0001

/-- The gradient of the objective with respect to the three parameters,
`(2*(x0-5), 2*x1, 2*(x2-1))`; theorem `gradf_is_deriv` below proves that
these are indeed the partial derivatives of the embedded objective. -/
def gradf (x : List ℝ) : List ℝ :=
  [2 * (x.getD 0 0 - 5), 2 * x.getD 1 0, 2 * (x.getD 2 0 - 1)]

/-- Modelled from the spec: the optimizer `torch.optim.SGD` is provided by
the external framework, not by this repository; per the spec it
"applies `x ← x - lr * grad`".  One step subtracts the learning rate times
the given gradient from each parameter. -/
def sgdStep (lrv : ℝ) (x g : List ℝ) : List ℝ :=
  List.zipWith (fun a b => a - lrv * b) x g

/-- One optimization step of the trial: an SGD step along the gradient of
the objective at the current parameters. -/
def trialStep (lrv : ℝ) (x : List ℝ) : List ℝ :=
  sgdStep lrv x (gradf x)

/-- Modelled from the spec: the training loop `tbtrial.run()` is provided by
the external framework; per the spec it "repeatedly computes the gradient of
the objective at the current parameter vector and applies `x ← x - lr * grad`"
for the configured number of steps. -/
def tbRun (lrv : ℝ) (steps : ℕ) (x : List ℝ) : List ℝ :=
  (trialStep lrv)^[steps] x

/-- The program's printed output: the single line
`print(list(model.parameters())[0].data)` after `tbtrial.run()` returns,
i.e. the parameter vector after all configured steps. -/
def programOutput : List (List ℝ) :=
  [tbRun lr training_steps p]

/-- Actions performed by the notebook's import cell. -/
inductive NotebookAction where
  | attemptTorchbearer : NotebookAction
  | pipInstallTorchbearer : NotebookAction
deriving DecidableEq

/-- Embedding of the notebook's import cell — a try/except block that first
imports torchbearer, and on any exception runs `!pip install torchbearer`
followed by a second import — parameterised by whether the first import
raises.  When it succeeds the cell stops after the single import; when it
raises, the cell installs the package and imports again. -/
def importCellActions (firstImportFails : Bool) : List NotebookAction :=
  if firstImportFails then
    [NotebookAction.attemptTorchbearer, NotebookAction.pipInstallTorchbearer,
     NotebookAction.attemptTorchbearer]
  else
    [NotebookAction.attemptTorchbearer]

lemma fval_eq (x0 x1 x2 : ℝ) :
    fval x0 x1 x2 = (x0 - 5) ^ 2 + x1 ^ 2 + (x2 - 1) ^ 2 := by
  simp [fval, Net.f]
  ring

/-- Claim C1: applied to any 3-element real parameter vector, `Net.f`
returns the scalar `(x0-5)^2 + x1^2 + (x2-1)^2`. -/
theorem net_f_eval (x0 x1 x2 : ℝ) :
    Net.f [x0, x1, x2] = some ((x0 - 5) ^ 2 + x1 ^ 2 + (x2 - 1) ^ 2) := by
  simp [Net.f]
  ring

/-- Claim C10: the loss function returns exactly `y_pred`, and its result
does not depend on `y_true`. -/
theorem loss_is_y_pred :
    (∀ yp yt : ℝ, loss yp yt = yp) ∧
    (∀ yp yt1 yt2 : ℝ, loss yp yt1 = loss yp yt2) :=
  ⟨fun _ _ => rfl, fun _ _ _ => rfl⟩

/-- Claim C2: the objective has a unique global minimum at `(5, 0, 1)`:
its value there is `0`, and it is strictly positive everywhere else. -/
theorem f_unique_global_min :
    fval 5 0 1 = 0 ∧
    ∀ x0 x1 x2 : ℝ, (x0, x1, x2) ≠ (5, 0, 1) → 0 < fval x0 x1 x2 := by
  constructor
  · rw [fval_eq]; norm_num
  · intro x0 x1 x2 hne
    rw [fval_eq]
    by_contra hle
    push_neg at hle
    have h0 := sq_nonneg (x0 - 5)
    have h1 := sq_nonneg x1
    have h2 := sq_nonneg (x2 - 1)
    have e0 : (x0 - 5) ^ 2 = 0 := le_antisymm (by linarith) h0
    have e1 : x1 ^ 2 = 0 := le_antisymm (by linarith) h1
    have e2 : (x2 - 1) ^ 2 = 0 := le_antisymm (by linarith) h2
    have hx0 : x0 = 5 := by
      have := pow_eq_zero_iff (n := 2) (by norm_num) |>.mp e0
      linarith
    have hx1 : x1 = 0 := pow_eq_zero_iff (n := 2) (by norm_num) |>.mp e1
    have hx2 : x2 = 1 := by
      have := pow_eq_zero_iff (n := 2) (by norm_num) |>.mp e2
      linarith
    exact hne (by rw [hx0, hx1, hx2])

theorem f_unique_global_min_witness :
    ((6 : ℝ), (0 : ℝ), (1 : ℝ)) ≠ ((5 : ℝ), (0 : ℝ), (1 : ℝ)) ∧
    0 < fval 6 0 1 :=
  ⟨by norm_num, f_unique_global_min.2 6 0 1 (by norm_num)⟩

lemma hasDerivAt_fval_fst (x0 x1 x2 : ℝ) :
    HasDerivAt (fun a => fval a x1 x2) (2 * (x0 - 5)) x0 := by
  have h : HasDerivAt (fun a : ℝ => (a - 5) ^ 2 + x1 ^ 2 + (x2 - 1) ^ 2)
      (2 * (x0 - 5)) x0 := by
    have hb : HasDerivAt (fun a : ℝ => a - 5) 1 x0 :=
      (hasDerivAt_id x0).sub_const 5
    have hp := hb.pow 2
    have := (hp.add_const (x1 ^ 2)).add_const ((x2 - 1) ^ 2)
    convert this using 1
    ring
  exact h.congr_of_eventuallyEq (Filter.Eventually.of_forall fun a => fval_eq a x1 x2)

lemma hasDerivAt_fval_snd (x0 x1 x2 : ℝ) :
    HasDerivAt (fun a => fval x0 a x2) (2 * x1) x1 := by
  have h : HasDerivAt (fun a : ℝ => (x0 - 5) ^ 2 + a ^ 2 + (x2 - 1) ^ 2)
      (2 * x1) x1 := by
    have hp := (hasDerivAt_pow 2 x1).const_add ((x0 - 5) ^ 2)
    have := hp.add_const ((x2 - 1) ^ 2)
    simpa using this
  exact h.congr_of_eventuallyEq (Filter.Eventually.of_forall fun a => fval_eq x0 a x2)

lemma hasDerivAt_fval_thd (x0 x1 x2 : ℝ) :
    HasDerivAt (fun a => fval x0 x1 a) (2 * (x2 - 1)) x2 := by
  have h : HasDerivAt (fun a : ℝ => (x0 - 5) ^ 2 + x1 ^ 2 + (a - 1) ^ 2)
      (2 * (x2 - 1)) x2 := by
    have hb : HasDerivAt (fun a : ℝ => a - 1) 1 x2 :=
      (hasDerivAt_id x2).sub_const 1
    have hp := hb.pow 2
    have h12 := hp.const_add ((x0 - 5) ^ 2 + x1 ^ 2)
    simpa using h12
  exact h.congr_of_eventuallyEq (Filter.Eventually.of_forall fun a => fval_eq x0 x1 a)

/-- Claim C3: the objective is convex — for all `x`, `y` and `t ∈ [0, 1]`,
`f(t*x + (1-t)*y) ≤ t*f(x) + (1-t)*f(y)` — and its gradient
`2*(x0-5, x1, x2-1)` vanishes only at `(5, 0, 1)`. -/
theorem f_convex_grad_zero_iff :
    (∀ t x0 x1 x2 y0 y1 y2 : ℝ, 0 ≤ t → t ≤ 1 →
      fval (t * x0 + (1 - t) * y0) (t * x1 + (1 - t) * y1) (t * x2 + (1 - t) * y2) ≤
        t * fval x0 x1 x2 + (1 - t) * fval y0 y1 y2) ∧
    (∀ x0 x1 x2 : ℝ, gradf [x0, x1, x2] = [0, 0, 0] ↔ (x0, x1, x2) = (5, 0, 1)) := by
  constructor
  · intro t x0 x1 x2 y0 y1 y2 ht ht1
    rw [fval_eq, fval_eq, fval_eq]
    have h1t : 0 ≤ 1 - t := by linarith
    have key : t * ((x0 - 5) ^ 2 + x1 ^ 2 + (x2 - 1) ^ 2) +
        (1 - t) * ((y0 - 5) ^ 2 + y1 ^ 2 + (y2 - 1) ^ 2) -
        ((t * x0 + (1 - t) * y0 - 5) ^ 2 + (t * x1 + (1 - t) * y1) ^ 2 +
          (t * x2 + (1 - t) * y2 - 1) ^ 2) =
        t * (1 - t) * ((x0 - y0) ^ 2 + (x1 - y1) ^ 2 + (x2 - y2) ^ 2) := by
      ring
    have hsq : (0 : ℝ) ≤ (x0 - y0) ^ 2 + (x1 - y1) ^ 2 + (x2 - y2) ^ 2 := by
      have := sq_nonneg (x0 - y0)
      have := sq_nonneg (x1 - y1)
      have := sq_nonneg (x2 - y2)
      linarith
    have hnn : 0 ≤ t * (1 - t) * ((x0 - y0) ^ 2 + (x1 - y1) ^ 2 + (x2 - y2) ^ 2) :=
      mul_nonneg (mul_nonneg ht h1t) hsq
    linarith [key, hnn]
  · intro x0 x1 x2
    constructor
    · intro h
      simp [gradf] at h
      obtain ⟨h0, h1, h2⟩ := h
      have : x0 = 5 := by linarith
      have : x1 = 0 := by linarith
      have : x2 = 1 := by linarith
      simp_all
    · intro h
      rw [Prod.ext_iff, Prod.ext_iff] at h
      obtain ⟨h0, h1, h2⟩ := h
      subst h0 h1 h2
      norm_num [gradf]

theorem f_convex_grad_zero_iff_witness :
    (0 : ℝ) ≤ (1 / 2 : ℝ) ∧ (1 / 2 : ℝ) ≤ 1 ∧
    fval ((1 / 2 : ℝ) * 2 + (1 - 1 / 2) * 6) ((1 / 2 : ℝ) * 1 + (1 - 1 / 2) * 0)
        ((1 / 2 : ℝ) * 10 + (1 - 1 / 2) * 1) ≤
      (1 / 2 : ℝ) * fval 2 1 10 + (1 - 1 / 2) * fval 6 0 1 ∧
    gradf [5, 0, 1] = [0, 0, 0] :=
  ⟨by norm_num, by norm_num,
    f_convex_grad_zero_iff.1 (1 / 2) 2 1 10 6 0 1 (by norm_num) (by norm_num),
    (f_convex_grad_zero_iff.2 5 0 1).mpr rfl⟩

/-- Claim C4: one optimization step performs exactly the gradient-descent
update `x ← x - lr * grad f(x)` on each coordinate, where the gradient
components `2*(x0-5)`, `2*x1`, `2*(x2-1)` are the true partial derivatives
of the objective; nothing else changes in the parameter vector. -/
theorem trialStep_is_sgd (lrv x0 x1 x2 : ℝ) :
    trialStep lrv [x0, x1, x2] =
      [x0 - lrv * (2 * (x0 - 5)), x1 - lrv * (2 * x1), x2 - lrv * (2 * (x2 - 1))] ∧
    HasDerivAt (fun a => fval a x1 x2) (2 * (x0 - 5)) x0 ∧
    HasDerivAt (fun a => fval x0 a x2) (2 * x1) x1 ∧
    HasDerivAt (fun a => fval x0 x1 a) (2 * (x2 - 1)) x2 := by
  refine ⟨?_, hasDerivAt_fval_fst x0 x1 x2, hasDerivAt_fval_snd x0 x1 x2,
    hasDerivAt_fval_thd x0 x1 x2⟩
  simp [trialStep, sgdStep, gradf]

lemma trialStep_three (lrv a b c : ℝ) :
    trialStep lrv [a, b, c] =
      [a - lrv * (2 * (a - 5)), b - lrv * (2 * b), c - lrv * (2 * (c - 1))] := by
  simp [trialStep, sgdStep, gradf]

/-- Closed form of the gradient-descent iteration on a three-element vector:
each coordinate's deviation from the target `(5, 0, 1)` is scaled by the
factor `1 - 2*lr` at every step. -/
lemma tbRun_closed_form (lrv a b c : ℝ) (n : ℕ) :
    tbRun lrv n [a, b, c] =
      [5 + (1 - 2 * lrv) ^ n * (a - 5), (1 - 2 * lrv) ^ n * b,
        1 + (1 - 2 * lrv) ^ n * (c - 1)] := by
  induction n with
  | zero => simp [tbRun]
  | succ k ih =>
      have hstep : tbRun lrv (k + 1) [a, b, c] =
          trialStep lrv (tbRun lrv k [a, b, c]) := by
        simp [tbRun, Function.iterate_succ_apply']
      rw [hstep, ih, trialStep_three]
      refine List.ext_getElem (by simp) ?_
      intro i hi hj
      simp only [List.length_cons, List.length_nil] at hi
      interval_cases i <;> simp <;> ring

/-- Bound on the per-step contraction factor after all 50000 steps:
`0.9998 ^ 50000 ≤ 1/1024`. -/
lemma contraction_bound :
    (0 : ℝ) ≤ (1 - 2 * lr) ^ 50000 ∧ (1 - 2 * lr) ^ 50000 ≤ 1 / 1024 := by
  have hlr : (1 - 2 * lr : ℝ) = 1 - 0.0002 := by norm_num [lr]
  constructor
  · positivity
  have hbern : (2 : ℝ) ≤ (1 + 0.0002) ^ 5000 := by
    have h := one_add_mul_le_pow (a := (0.0002 : ℝ)) (by norm_num) 5000
    calc (2 : ℝ) = 1 + (5000 : ℕ) * 0.0002 := by norm_num
      _ ≤ (1 + 0.0002) ^ 5000 := h
  have hhalf : ((1 : ℝ) - 0.0002) ^ 5000 ≤ 1 / 2 := by
    have hle : ((1 : ℝ) - 0.0002) ≤ 1 / (1 + 0.0002) := by
      rw [le_div_iff (by norm_num)]
      norm_num
    calc ((1 : ℝ) - 0.0002) ^ 5000 ≤ (1 / (1 + 0.0002)) ^ 5000 :=
          pow_le_pow_left (by norm_num) hle 5000
      _ = 1 / ((1 + 0.0002) ^ 5000) := by rw [div_pow]; norm_num
      _ ≤ 1 / 2 := by
          apply one_div_le_one_div_of_le (by norm_num) hbern
  have hsplit : ((1 : ℝ) - 0.0002) ^ 50000 = (((1 : ℝ) - 0.0002) ^ 5000) ^ 10 := by
    rw [← pow_mul]
  rw [hlr, hsplit]
  calc (((1 : ℝ) - 0.0002) ^ 5000) ^ 10 ≤ (1 / 2) ^ 10 :=
        pow_le_pow_left (by positivity) hhalf 10
    _ = 1 / 1024 := by norm_num

lemma getD_three_zero (a b c : ℝ) : [a, b, c].getD 0 0 = a := rfl

lemma getD_three_one (a b c : ℝ) : [a, b, c].getD 1 0 = b := rfl

lemma getD_three_two (a b c : ℝ) : [a, b, c].getD 2 0 = c := rfl

/-- Claim C5: running the gradient-descent iteration at learning rate
`0.0001` for the configured 50000 steps from `(2, 1, 10)` scales each
coordinate's deviation from the target `(5, 0, 1)` by `1 - 0.0002` per
step, and the final vector is within `1/100` of `(5, 0, 1)` in every
coordinate with objective value at most `1/1000`. -/
theorem sgd_run_converges :
    (∀ n : ℕ,
      (tbRun lr (n + 1) p).getD 0 0 - 5 = (1 - 0.0002) * ((tbRun lr n p).getD 0 0 - 5) ∧
      (tbRun lr (n + 1) p).getD 1 0 = (1 - 0.0002) * (tbRun lr n p).getD 1 0 ∧
      (tbRun lr (n + 1) p).getD 2 0 - 1 = (1 - 0.0002) * ((tbRun lr n p).getD 2 0 - 1)) ∧
    |(tbRun lr training_steps p).getD 0 0 - 5| ≤ 1 / 100 ∧
    |(tbRun lr training_steps p).getD 1 0| ≤ 1 / 100 ∧
    |(tbRun lr training_steps p).getD 2 0 - 1| ≤ 1 / 100 ∧
    (Net.f (tbRun lr training_steps p)).getD 0 ≤ 1 / 1000 := by
  have hl : (1 - 2 * lr : ℝ) = 1 - 0.0002 := by norm_num [lr]
  have hp3 : p = [(2 : ℝ), 1, 10] := by norm_num [p]
  have hcf : ∀ n : ℕ, tbRun lr n p =
      [5 + (1 - 0.0002) ^ n * (2 - 5), (1 - 0.0002) ^ n * 1,
        1 + (1 - 0.0002) ^ n * (10 - 1)] := by
    intro n
    rw [hp3, tbRun_closed_form, hl]
  obtain ⟨hq0, hq⟩ := contraction_bound
  rw [hl] at hq0 hq
  have hts : training_steps = 50000 := rfl
  have hkey : ∀ Q : ℝ, 0 ≤ Q → Q ≤ 1 / 1024 →
      |5 + Q * (2 - 5) - 5| ≤ 1 / 100 ∧
      |Q * 1| ≤ 1 / 100 ∧
      |1 + Q * (10 - 1) - 1| ≤ 1 / 100 ∧
      (5 + Q * (2 - 5) - 5) ^ 2 + (Q * 1) ^ 2 + (1 + Q * (10 - 1) - 1) ^ 2 ≤
        1 / 1000 := by
    intro Q hQ0 hQle
    have habs0 : (5 + Q * (2 - 5) - 5) = -(3 * Q) := by ring
    have habs2 : (1 + Q * (10 - 1) - 1) = 9 * Q := by ring
    have h3 : (0 : ℝ) ≤ 3 * Q := by linarith
    have h9 : (0 : ℝ) ≤ 9 * Q := by linarith
    refine ⟨?_, ?_, ?_, ?_⟩
    · rw [habs0, abs_neg, abs_of_nonneg h3]
      linarith
    · rw [mul_one, abs_of_nonneg hQ0]
      linarith
    · rw [habs2, abs_of_nonneg h9]
      linarith
    · have hQ2 : Q ^ 2 ≤ (1 / 1024 : ℝ) ^ 2 := pow_le_pow_left hQ0 hQle 2
      have hnum : ((1 / 1024 : ℝ)) ^ 2 = 1 / 1048576 := by norm_num
      have hid : (5 + Q * (2 - 5) - 5) ^ 2 + (Q * 1) ^ 2 +
          (1 + Q * (10 - 1) - 1) ^ 2 = 91 * Q ^ 2 := by ring
      rw [hid]
      rw [hnum] at hQ2
      linarith
  refine ⟨?_, ?_, ?_, ?_, ?_⟩
  · intro n
    rw [hcf n, hcf (n + 1)]
    simp only [getD_three_zero, getD_three_one, getD_three_two]
    refine ⟨by rw [pow_succ]; ring, by rw [pow_succ]; ring, by rw [pow_succ]; ring⟩
  · rw [hts, hcf 50000, getD_three_zero]
    exact (hkey _ hq0 hq).1
  · rw [hts, hcf 50000, getD_three_one]
    exact (hkey _ hq0 hq).2.1
  · rw [hts, hcf 50000, getD_three_two]
    exact (hkey _ hq0 hq).2.2.1
  · rw [hts, hcf 50000, net_f_eval, Option.getD_some]
    exact (hkey _ hq0 hq).2.2.2

/-- Claim C6: the import cell attempts the import first; it installs the
package exactly when that import raises, in which case it imports again,
and when the first import succeeds no installation happens. -/
theorem import_fallback_iff :
    ∀ firstImportFails : Bool,
      (NotebookAction.pipInstallTorchbearer ∈ importCellActions firstImportFails ↔
        firstImportFails = true) ∧
      (importCellActions firstImportFails).head? = some NotebookAction.attemptTorchbearer ∧
      (importCellActions firstImportFails).count NotebookAction.attemptTorchbearer =
        (if firstImportFails then 2 else 1) := by
  intro b
  cases b <;> decide

/-- Claim C7: the program's only output is the single printed line holding
the parameter vector, and the printed vector is exactly the state after all
50000 configured update steps. -/
theorem program_output_final_params :
    programOutput.length = 1 ∧
    training_steps = 50000 ∧
    programOutput.getD 0 [] = tbRun lr training_steps p ∧
    programOutput.getD 0 [] = (trialStep lr)^[50000] p := by
  have h2 : training_steps = 50000 := rfl
  have h3 : programOutput.getD 0 [] = tbRun lr training_steps p := by
    unfold programOutput
    rw [List.getD_cons_zero]
  have h4 : tbRun lr training_steps p = (trialStep lr)^[50000] p := by
    unfold tbRun
    rw [h2]
  exact ⟨rfl, h2, h3, h3.trans h4⟩

lemma trialStep_length (lrv : ℝ) (x : List ℝ) (hx : x.length = 3) :
    (trialStep lrv x).length = 3 := by
  simp [trialStep, sgdStep, gradf, hx]

/-- Claim C8: the parameter vector is a 3-element real vector initialized
to `(2, 1, 10)`; it is the whole state iterated by the optimizer, and its
length is still 3 after every number of update steps. -/
theorem param_vector_invariant :
    p = [2.0, 1.0, 10.0] ∧
    p.length = 3 ∧
    (∀ lrv : ℝ, ∀ x : List ℝ, x.length = 3 → (trialStep lrv x).length = 3) ∧
    (∀ lrv : ℝ, ∀ n : ℕ, ((trialStep lrv)^[n] p).length = 3) := by
  refine ⟨rfl, rfl, trialStep_length, ?_⟩
  intro lrv n
  induction n with
  | zero => rfl
  | succ k ih =>
      rw [Function.iterate_succ_apply']
      exact trialStep_length lrv _ ih

theorem param_vector_invariant_witness :
    ([(1 : ℝ), 2, 3] : List ℝ).length = 3 ∧ (trialStep 1 [(1 : ℝ), 2, 3]).length = 3 :=
  ⟨rfl, param_vector_invariant.2.2.1 1 [(1 : ℝ), 2, 3] rfl⟩

lemma fImper_eq (pars : List ℝ) : Net.fImper pars = (pars, Net.f pars) := by
  unfold Net.fImper Net.f
  rcases h0 : pars[0]? with _ | p0 <;> rcases h1 : pars[1]? with _ | p1 <;>
    rcases h2 : pars[2]? with _ | p2 <;> simp [h0, h1, h2]

/-- Claim C9: evaluating the objective leaves the parameter vector
unchanged, produces the same value as the pure function, and is
deterministic: equal parameter vectors give equal results. -/
theorem f_eval_pure :
    (∀ pars : List ℝ, (Net.fImper pars).1 = pars) ∧
    (∀ pars : List ℝ, (Net.fImper pars).2 = Net.f pars) ∧
    (∀ ps1 ps2 : List ℝ, ps1 = ps2 → Net.f ps1 = Net.f ps2) :=
  ⟨fun pars => by rw [fImper_eq], fun pars => by rw [fImper_eq],
    fun _ _ h => by rw [h]⟩

theorem f_eval_pure_witness :
    ([(1 : ℝ), 2, 3] : List ℝ) = [(1 : ℝ), 2, 3] ∧
    Net.f [(1 : ℝ), 2, 3] = Net.f [(1 : ℝ), 2, 3] :=
  ⟨rfl, f_eval_pure.2.2 [(1 : ℝ), 2, 3] [(1 : ℝ), 2, 3] rfl⟩

end BasicOpt
